import Mathlib

/-!
Verification of the Feedback Aggregation & Insight Generation pipeline of the
casestudy-dashboard repository (src/main.py, src/config.py).

The Python source is shallowly embedded: the session-state list
`st.session_state.feedback_data` becomes a `List FeedbackRecord`; the feedback
submission handler of `feedback_page` (src/main.py lines 275-294) becomes
`submitFeedback`; the aggregations of `insights_page` (lines 333-423),
`generate_recommendations` (lines 425-445) and `generate_summary_report`
(lines 447-490) become pure functions over the record list.  pandas operations
are modelled over lists: `Series.mean` of an empty column is NaN, modelled as
`none` of an `Option ℚ`; `value_counts` is counting by first appearance
followed by a stable sort by descending count; `groupby(...).unstack`
sorts its keys lexicographically.  Machine floats are modelled by exact
rationals: every fraction the code compares is a ratio of small integers, so
the IEEE double comparisons of the source agree with the rational ones.
-/

/-- Timestamp of a submission (`datetime.now()` in the source).  Only the
components the pipeline reads are modelled: the calendar day, the hour used by
the hourly timeline (`df.timestamp.dt.hour`, src/main.py line 363) and the
minute used for display. -/
structure DateTime where
  day : Nat
  hour : Nat
  minute : Nat
deriving DecidableEq, Repr

/-- One stored feedback entry, mirroring the dict literal built at
src/main.py lines 281-290 (keys in order: timestamp, name, demographic,
type, text, sentiment, key_points, category). -/
structure FeedbackRecord where
  timestamp : DateTime
  name : String
  demographic : String
  type : String
  text : String
  sentiment : String
  key_points : List String
  category : String
deriving DecidableEq, Repr

/-- The raw form input together with the classifier collaborator output
(`ai_analyzer.process_feedback`, a dict whose keys may be absent, hence the
`Option` fields read with `.get(key, default)` at lines 287-289). -/
structure Submission where
  timestamp : DateTime
  name : String
  demographic : String
  type : String
  text : String
  sentimentOpt : Option String
  keyPointsOpt : Option (List String)
  categoryOpt : Option String
deriving DecidableEq, Repr

/-- The fixed demographic enumeration (src/config.py DEMOGRAPHICS and the
selectbox at src/main.py lines 258-262). -/
def DEMOGRAPHICS : List String :=
  ["General Citizen", "Student", "Farmer", "Business Owner",
   "Senior Citizen", "Parent", "Teacher", "Healthcare Worker"]

/-- The fixed feedback-type enumeration (src/config.py FEEDBACK_TYPES and the
radio group at src/main.py lines 264-267). -/
def FEEDBACK_TYPES : List String := ["Support", "Concern", "Suggestion", "Question"]

/-- The three sentiment classes of the spec, in its fixed order. -/
def SENTIMENT_CLASSES : List String := ["positive", "neutral", "negative"]

/-- The dict literal of src/main.py lines 281-290: `name or 'Anonymous'`
(the empty string is falsy in Python, so it is replaced exactly like an
absent name), and the classifier fields read with
`processed_feedback.get('sentiment', 'neutral')`,
`.get('key_points', [])`, `.get('category', 'general')` - the default is
used only when the key is absent, never when the value is unrecognized. -/
def mkFeedbackEntry (s : Submission) : FeedbackRecord :=
  { timestamp := s.timestamp
    name := if s.name = "" then "Anonymous" else s.name
    demographic := s.demographic
    type := s.type
    text := s.text
    sentiment := s.sentimentOpt.getD "neutral"
    key_points := s.keyPointsOpt.getD []
    category := s.categoryOpt.getD "general" }

/-- The submission handler of `feedback_page` (src/main.py lines 277-292):
`if submitted and feedback_text:` guards the append, so an empty text leaves
the store untouched (silently - no exception is raised anywhere), and any
non-empty text is appended after classification.  No check of `demographic`
or `type` appears in this path. -/
def submitFeedback (store : List FeedbackRecord) (s : Submission) : List FeedbackRecord :=
  if s.text = "" then store else store ++ [mkFeedbackEntry s]

/-- Count of records whose sentiment column equals `"positive"`, as in
`(df['sentiment'] == 'positive')` summed (src/main.py lines 348, 450). -/
def posCount (records : List FeedbackRecord) : Nat :=
  (records.map (fun r => r.sentiment)).count "positive"

/-- Count of records whose sentiment column equals `"negative"`
(src/main.py lines 351, 430, 451). -/
def negCount (records : List FeedbackRecord) : Nat :=
  (records.map (fun r => r.sentiment)).count "negative"

/-- Count of records whose sentiment column equals `"neutral"`; the spec
names this third percentage of the sentiment distribution, computed by the
same column-comparison aggregation the code applies to the other two
classes. -/
def neutralCount (records : List FeedbackRecord) : Nat :=
  (records.map (fun r => r.sentiment)).count "neutral"

/-- `(df['type'] == 'Suggestion').sum()` of src/main.py line 441. -/
def suggestionCount (records : List FeedbackRecord) : Nat :=
  (records.map (fun r => r.type)).count "Suggestion"

/-- `(df['sentiment'] == 'positive').mean() * 100` (src/main.py lines 348,
450).  pandas mean of an empty column is NaN, modelled as `none`. -/
def supportRate (records : List FeedbackRecord) : Option ℚ :=
  if records.length = 0 then none
  else some ((posCount records : ℚ) / (records.length : ℚ) * 100)

/-- `(df['sentiment'] == 'negative').mean() * 100` (src/main.py lines 351,
451), NaN on an empty column modelled as `none`. -/
def concernRate (records : List FeedbackRecord) : Option ℚ :=
  if records.length = 0 then none
  else some ((negCount records : ℚ) / (records.length : ℚ) * 100)

/-- The neutral percentage of the sentiment distribution (§3 of the spec),
by the same formula as the two rates the code displays. -/
def neutralRate (records : List FeedbackRecord) : Option ℚ :=
  if records.length = 0 then none
  else some ((neutralCount records : ℚ) / (records.length : ℚ) * 100)

/-- `negative_pct = (df['sentiment'] == 'negative').mean()` of
src/main.py line 430, NaN on an empty frame modelled as `none`. -/
def negative_pct (records : List FeedbackRecord) : Option ℚ :=
  if records.length = 0 then none
  else some ((negCount records : ℚ) / (records.length : ℚ))

/-- Comparison `x > c` on a possibly-NaN value: every comparison against NaN
is false in IEEE arithmetic, matching `NaN > 0.3` being `False` in Python. -/
def optGtQ (x : Option ℚ) (c : ℚ) : Bool :=
  match x with
  | none => false
  | some q => decide (c < q)

/-- Records with sentiment `"negative"`, in store order
(`df[df['sentiment'] == 'negative']`, src/main.py lines 378, 435, 480). -/
def negativeRecords (records : List FeedbackRecord) : List FeedbackRecord :=
  records.filter (fun r => r.sentiment == "negative")

/-- Records with sentiment `"positive"`, in store order (lines 385, 486). -/
def positiveRecords (records : List FeedbackRecord) : List FeedbackRecord :=
  records.filter (fun r => r.sentiment == "positive")

/-- The demographic column of the negative-sentiment rows
(`df[df['sentiment'] == 'negative']['demographic']`, src/main.py line 435). -/
def negDemos (records : List FeedbackRecord) : List String :=
  (negativeRecords records).map (fun r => r.demographic)

/-- Distinct values of a column in first-appearance order, the key order a
pandas hash table produces before any sorting; `seen` accumulates the values
already emitted. -/
def dedupFirstAux (seen : List String) : List String → List String
  | [] => []
  | x :: xs =>
    if x ∈ seen then dedupFirstAux seen xs
    else x :: dedupFirstAux (x :: seen) xs

/-- Distinct values of a column in first-appearance order. -/
def dedupFirst (l : List String) : List String :=
  dedupFirstAux [] l

/-- Stable insertion into a list sorted by descending count: an element is
placed before every element of equal count, so the earlier-appearing value
stays first, matching the deterministic tie-break of a stable descending
sort. -/
def insertDesc (p : String × Nat) : List (String × Nat) → List (String × Nat)
  | [] => [p]
  | q :: qs => if q.2 ≤ p.2 then p :: q :: qs else q :: insertDesc p qs

/-- Stable sort by descending count. -/
def sortCountDesc : List (String × Nat) → List (String × Nat)
  | [] => []
  | p :: ps => insertDesc p (sortCountDesc ps)

/-- `Series.value_counts()`: one row per distinct value with its occurrence
count, sorted by descending count, ties resolved by first appearance
(src/main.py lines 303, 309, 435, 466, 470, 474). -/
def value_counts (l : List String) : List (String × Nat) :=
  sortCountDesc ((dedupFirst l).map (fun k => (k, l.count k)))

/-- `demo_concerns.index[0]` of src/main.py line 437: the first index label
of the value-counts of the demographic column of the negative rows. -/
def topConcernedDemographic (records : List FeedbackRecord) : Option String :=
  (value_counts (negDemos records)).head?.map (fun p => p.1)

/-- Literal string of src/main.py line 432. -/
def rec1msg : String :=
  "Consider addressing the high level of concerns (30%+) before policy implementation."

/-- Interpolated string of src/main.py line 438. -/
def rec2msg (d : String) : String :=
  "Focus stakeholder engagement on " ++ d ++ " group, which shows highest concern levels."

/-- Interpolated string of src/main.py line 443. -/
def rec3msg (n : Nat) : String :=
  "Review " ++ toString n ++ " citizen suggestions for potential policy improvements."

/-- `generate_recommendations` (src/main.py lines 425-445): three rules
evaluated independently, appending their messages in this fixed order. -/
def generate_recommendations (records : List FeedbackRecord) : List String :=
  let recs1 := if optGtQ (negative_pct records) (3 / 10) then [rec1msg] else []
  let recs2 :=
    match value_counts (negDemos records) with
    | [] => []
    | (d, _) :: _ => [rec2msg d]
  let sCount := suggestionCount records
  let recs3 := if 0 < sCount then [rec3msg sCount] else []
  recs1 ++ recs2 ++ recs3

/-- Lexicographic order on character lists by code point, the comparison a
pandas `groupby` applies when it sorts string keys. -/
def charListLe : List Char → List Char → Bool
  | [], _ => true
  | _ :: _, [] => false
  | a :: as, b :: bs => if a < b then true else if b < a then false else charListLe as bs

/-- Lexicographic order on strings by code point. -/
def strLe (a b : String) : Bool := charListLe a.data b.data

/-- Insertion into a lexicographically ascending list of strings. -/
def insertAsc (x : String) : List String → List String
  | [] => [x]
  | y :: ys => if strLe x y then x :: y :: ys else y :: insertAsc x ys

/-- Lexicographically ascending sort of strings. -/
def sortStrAsc : List String → List String
  | [] => []
  | x :: xs => insertAsc x (sortStrAsc xs)

/-- Row labels of `df.groupby(['demographic', 'sentiment']).size().unstack(fill_value=0)`
(src/main.py line 370): the distinct demographics present in the data,
sorted lexicographically by the groupby (its default `sort=True`). -/
def crossTabRows (records : List FeedbackRecord) : List String :=
  sortStrAsc (dedupFirst (records.map (fun r => r.demographic)))

/-- Column labels of the unstacked cross-tabulation: the distinct sentiment
values present in the data, sorted lexicographically. -/
def crossTabCols (records : List FeedbackRecord) : List String :=
  sortStrAsc (dedupFirst (records.map (fun r => r.sentiment)))

/-- Number of records with the given demographic and sentiment: the size of
one group of the groupby, and `0` for a label pair `unstack(fill_value=0)`
fills in. -/
def cellCount (records : List FeedbackRecord) (d s : String) : Nat :=
  (records.filter (fun r => r.demographic == d && r.sentiment == s)).length

/-- The demographic × sentiment cross-tabulation of src/main.py line 370,
as the list of rows (one per present demographic, sorted) of cells (one per
present sentiment value, sorted), each cell carrying its group size with
absent combinations filled with 0. -/
def crossTab (records : List FeedbackRecord) : List (String × List (String × Nat)) :=
  (crossTabRows records).map (fun d =>
    (d, (crossTabCols records).map (fun s => (s, cellCount records d s))))

/-- Display form of a timestamp, standing for
`timestamp.strftime('%Y-%m-%d %H:%M:%S')`. -/
def dtFullStr (t : DateTime) : String :=
  toString t.day ++ " " ++ toString t.hour ++ ":" ++ toString t.minute

/-- Display form of a key-points list, standing for the Python `str` of a
list of strings in the CSV cell. -/
def keyPointsStr (l : List String) : String :=
  "[" ++ String.intercalate ", " l ++ "]"

/-- Header row of `df.to_csv(index=False)` at src/main.py line 407: the
eight dict keys of the record in insertion order, plus the `hour` column
added to the very same frame at line 363 before the export runs. -/
def csvHeader : List String :=
  ["timestamp", "name", "demographic", "type", "text", "sentiment",
   "key_points", "category", "hour"]

/-- One CSV data row: the eight attribute cells of a record, in the fixed
header order, plus its `hour` cell. -/
def serializeRecord (r : FeedbackRecord) : List String :=
  [dtFullStr r.timestamp, r.name, r.demographic, r.type, r.text, r.sentiment,
   keyPointsStr r.key_points, r.category, toString r.timestamp.hour]

/-- `df.to_csv(index=False)` at src/main.py line 407, at the level of rows
and cells: the header row followed by one row per stored record in
insertion order (`to_csv` writes rows in frame order, and no sort was
applied to the frame). -/
def csvExport (records : List FeedbackRecord) : List (List String) :=
  csvHeader :: records.map serializeRecord

/-- One-decimal display of a rate, standing for the `:.1f` format
(rounding half up on the exact rational value). -/
def fmtTenths (q : ℚ) : String :=
  let n : Int := (20 * q.num / q.den + 1) / 2
  toString (n / 10) ++ "." ++ toString (n % 10)

/-- Display of a possibly-NaN rate: Python formats a NaN float as `nan`. -/
def fmtRate (x : Option ℚ) : String :=
  match x with
  | none => "nan"
  | some q => fmtTenths q

/-- `Series.value_counts().to_string()` (src/main.py lines 466, 470, 474):
one line per distinct value with its count. -/
def vcToString (vc : List (String × Nat)) : String :=
  String.intercalate "\n" (vc.map (fun p => p.1 ++ "    " ++ toString p.2))

/-- The numbered verbatim feedback lines of the report loops at
src/main.py lines 481-482 and 487-488. -/
def numberedLines (l : List String) : String :=
  String.join (l.enum.map (fun p => toString (p.1 + 1) ++ ". " ++ p.2 ++ "\n"))

/-- Everything `generate_summary_report` emits after the generation
timestamp (src/main.py lines 453-490): a pure function of the store
snapshot alone. -/
def reportRest (records : List FeedbackRecord) : String :=
  "\n\nSUMMARY STATISTICS\n==================\nTotal Feedback Received: "
    ++ toString records.length
    ++ "\nSupport Rate: " ++ fmtRate (supportRate records)
    ++ "%\nConcern Rate: " ++ fmtRate (concernRate records)
    ++ "%\nDemographics Represented: "
    ++ toString (dedupFirst (records.map (fun r => r.demographic))).length
    ++ "\n\nDEMOGRAPHIC BREAKDOWN\n====================\n"
    ++ vcToString (value_counts (records.map (fun r => r.demographic)))
    ++ "\n\nSENTIMENT ANALYSIS\n==================\n"
    ++ vcToString (value_counts (records.map (fun r => r.sentiment)))
    ++ "\n\nFEEDBACK TYPES\n==============\n"
    ++ vcToString (value_counts (records.map (fun r => r.type)))
    ++ "\n\nTOP CONCERNS\n============\n"
    ++ numberedLines (((negativeRecords records).map (fun r => r.text)).take 5)
    ++ "\nTOP SUPPORT POINTS\n================\n"
    ++ numberedLines (((positiveRecords records).map (fun r => r.text)).take 5)

/-- `generate_summary_report` (src/main.py lines 447-490): the fixed
leading section with the embedded `datetime.now()` timestamp, followed by
the store-determined rest. -/
def generate_summary_report (records : List FeedbackRecord) (now : DateTime) : String :=
  "\nPOLICY FEEDBACK ANALYSIS REPORT\nGenerated: "
    ++ (dtFullStr now ++ reportRest records)

/-- Fixed sample timestamp for concrete stores. -/
def t0 : DateTime := ⟨1, 10, 0⟩

/-- Helper building a record directly from demographic and sentiment, the
shape of the concrete example of the spec (§8). -/
def mkRec (d s : String) : FeedbackRecord :=
  ⟨t0, "Anonymous", d, "Concern", "feedback text", s, [], "general"⟩

/-- The concrete store of the spec (§8): two negative Farmer records and one
negative Student record. -/
def ex5 : List FeedbackRecord :=
  [mkRec "Farmer" "negative", mkRec "Farmer" "negative", mkRec "Student" "negative"]

/-- A store whose demographics appear in the order Student, Farmer, and
whose sentiment values are only positive and negative. -/
def ex7 : List FeedbackRecord :=
  [mkRec "Student" "positive", mkRec "Farmer" "negative"]

/-- A submission whose classifier output carries the unrecognized sentiment
value `"happy"`. -/
def subHappy : Submission :=
  ⟨t0, "Ann", "Student", "Support", "nice policy", some "happy", some [], some "general"⟩

/-- A submission whose classifier output lacks the sentiment key. -/
def subNoSent : Submission :=
  ⟨t0, "Ben", "Farmer", "Question", "what about water", none, none, none⟩

/-- A submission with an empty name and a recognized sentiment. -/
def subNoName : Submission :=
  ⟨t0, "", "Parent", "Support", "good idea", some "positive", some [], some "general"⟩

/-- A valid positive-sentiment submission. -/
def subPos : Submission :=
  ⟨t0, "Cal", "Teacher", "Support", "clear and fair", some "positive", some [], some "general"⟩

/-- A submission whose demographic and type lie outside both fixed
enumerations, with non-empty text. -/
def subAlien : Submission :=
  ⟨t0, "Dee", "Alien", "Chant", "strange words", some "neutral", some [], some "general"⟩

/-- A submission with empty feedback text. -/
def subEmptyText : Submission :=
  ⟨t0, "Eve", "Student", "Support", "", some "positive", some [], some "general"⟩

/-- The store obtained by submitting the unrecognized-sentiment feedback to
an empty store. -/
def stHappy : List FeedbackRecord := submitFeedback [] subHappy


/-- Appending strings appends their character data. -/
theorem data_append (s t : String) : (s ++ t).data = s.data ++ t.data := by
  cases s
  cases t
  rfl

/-- The rule-1 message differs from every rule-2 message: their first
characters differ. -/
theorem rec1msg_ne_rec2msg (d : String) : rec1msg ≠ rec2msg d := by
  intro h
  have h1 : rec1msg.data = (rec2msg d).data := congrArg String.data h
  simp only [rec2msg] at h1
  rw [data_append, data_append] at h1
  have e0 : ("Focus stakeholder engagement on " : String).data
      = 'F' :: ("ocus stakeholder engagement on " : String).data := rfl
  rw [e0, List.cons_append, List.cons_append] at h1
  have e1 : rec1msg.data.head? = some 'C' := rfl
  rw [h1] at e1
  simp at e1

/-- The rule-1 message differs from every rule-3 message. -/
theorem rec1msg_ne_rec3msg (n : Nat) : rec1msg ≠ rec3msg n := by
  intro h
  have h1 : rec1msg.data = (rec3msg n).data := congrArg String.data h
  simp only [rec3msg] at h1
  rw [data_append, data_append] at h1
  have e0 : ("Review " : String).data = 'R' :: ("eview " : String).data := rfl
  rw [e0, List.cons_append, List.cons_append] at h1
  have e1 : rec1msg.data.head? = some 'C' := rfl
  rw [h1] at e1
  simp at e1

/-- Unfolding of the possibly-NaN comparison: it is true exactly on a
present value strictly above the threshold. -/
theorem optGtQ_eq_true_iff (x : Option ℚ) (c : ℚ) :
    optGtQ x c = true ↔ ∃ q, x = some q ∧ c < q := by
  cases x with
  | none => simp [optGtQ]
  | some q => simp [optGtQ]

/-- C4: recommendation rule 1 is emitted exactly when the negative-sentiment
fraction of the store is defined and strictly greater than 3/10: the source
compares `negative_pct > 0.3` (src/main.py line 431) and `0.3` never
triggers, every fraction above it does, and the empty store (NaN fraction)
does not. -/
theorem rule1_mem_iff (records : List FeedbackRecord) :
    rec1msg ∈ generate_recommendations records ↔
      ∃ q, negative_pct records = some q ∧ 3 / 10 < q := by
  simp only [generate_recommendations]
  constructor
  · intro h
    rcases List.mem_append.mp h with h | h
    · rcases List.mem_append.mp h with h | h
      · by_cases hc : optGtQ (negative_pct records) (3 / 10) = true
        · exact (optGtQ_eq_true_iff _ _).mp hc
        · rw [if_neg hc] at h
          simp at h
      · exfalso
        rcases hvc : value_counts (negDemos records) with _ | ⟨⟨d, c⟩, t⟩
        · rw [hvc] at h
          simp at h
        · rw [hvc] at h
          simp at h
          exact rec1msg_ne_rec2msg d h
    · by_cases hs : 0 < suggestionCount records
      · rw [if_pos hs] at h
        simp at h
        exact absurd h (rec1msg_ne_rec3msg _)
      · rw [if_neg hs] at h
        simp at h
  · intro h
    have hc : optGtQ (negative_pct records) (3 / 10) = true :=
      (optGtQ_eq_true_iff _ _).mpr h
    rw [hc]
    simp

/-- Every record that the submission handler ever appends carries a
non-empty name, whatever store it starts from. -/
theorem names_nonempty_foldl (subs : List Submission) :
    ∀ init : List FeedbackRecord, (∀ r ∈ init, r.name ≠ "") →
      ∀ r ∈ List.foldl submitFeedback init subs, r.name ≠ "" := by
  induction subs with
  | nil => exact fun init h => h
  | cons s ss ih =>
    intro init hinit r hr
    refine ih (submitFeedback init s) ?_ r hr
    intro x hx
    unfold submitFeedback at hx
    split at hx
    · exact hinit x hx
    · rcases List.mem_append.mp hx with h | h
      · exact hinit x h
      · simp only [List.mem_singleton] at h
        subst h
        simp only [mkFeedbackEntry]
        split
        · simp
        · assumption

/-- C10: every stored record has a non-empty name: the handler stores
`name or 'Anonymous'` (src/main.py line 283), so an empty submitted name
becomes the sentinel and no reachable store contains a record whose name is
the empty string. -/
theorem stored_names_never_empty :
    (∀ s : Submission, s.name = "" → (mkFeedbackEntry s).name = "Anonymous") ∧
    ∀ (subs : List Submission) (r : FeedbackRecord),
      r ∈ List.foldl submitFeedback [] subs → r.name ≠ "" := by
  constructor
  · intro s hs
    simp [mkFeedbackEntry, hs]
  · intro subs r hr
    exact names_nonempty_foldl subs [] (by simp) r hr

/-- Witness for C10 at a concrete submission sequence. -/
theorem stored_names_never_empty_witness :
    (mkFeedbackEntry subNoName).name = "Anonymous" ∧
    (mkFeedbackEntry subPos).name ≠ "" :=
  ⟨stored_names_never_empty.1 subNoName rfl,
   stored_names_never_empty.2 [subPos] (mkFeedbackEntry subPos) (by decide)⟩

/-- C2 counterexample: a submission whose demographic and type lie outside
both fixed enumerations is appended unchanged - nothing in the handler
rejects it, so the claimed `ValidationError` on enumeration violations does
not exist in the code. -/
theorem append_validation_counterexample :
    submitFeedback [] subAlien = [mkFeedbackEntry subAlien] ∧
    (mkFeedbackEntry subAlien).demographic = "Alien" ∧
    "Alien" ∉ DEMOGRAPHICS ∧
    (mkFeedbackEntry subAlien).type = "Chant" ∧
    "Chant" ∉ FEEDBACK_TYPES := by decide

/-- C2 amended: the handler guards only on the text: an empty text leaves
the store unchanged (silently, raising nothing), and any non-empty text is
appended whole in one step, whatever its demographic or type. -/
theorem submit_guard (store : List FeedbackRecord) (s : Submission) :
    (s.text = "" → submitFeedback store s = store) ∧
    (s.text ≠ "" → submitFeedback store s = store ++ [mkFeedbackEntry s]) := by
  constructor
  · intro h
    simp [submitFeedback, h]
  · intro h
    simp [submitFeedback, h]

/-- Witness for the amended C2 at concrete submissions. -/
theorem submit_guard_witness :
    submitFeedback [] subEmptyText = [] ∧
    submitFeedback [] subAlien = [] ++ [mkFeedbackEntry subAlien] :=
  ⟨(submit_guard [] subEmptyText).1 rfl, (submit_guard [] subAlien).2 (by decide)⟩

/-- C3 counterexample: a classifier sentiment outside the three classes is
stored verbatim and propagates into the aggregates - the neutral count stays
0 and the sentiment value-counts shows the foreign label, because
`.get('sentiment', 'neutral')` (src/main.py line 287) defaults only a
missing key, never an unrecognized value. -/
theorem unrecognized_sentiment_counterexample :
    subHappy.sentimentOpt = some "happy" ∧
    "happy" ∉ SENTIMENT_CLASSES ∧
    stHappy.map (fun r => r.sentiment) = ["happy"] ∧
    neutralCount stHappy = 0 ∧
    value_counts (stHappy.map (fun r => r.sentiment)) = [("happy", 1)] := by decide

/-- C3 amended: the neutral default applies exactly when the classifier
output lacks the sentiment key; a present value, recognized or not, is
stored as-is. -/
theorem sentiment_default_only_when_missing (s : Submission) :
    (s.sentimentOpt = none → (mkFeedbackEntry s).sentiment = "neutral") ∧
    ∀ v, s.sentimentOpt = some v → (mkFeedbackEntry s).sentiment = v := by
  constructor
  · intro h
    simp [mkFeedbackEntry, h]
  · intro v h
    simp [mkFeedbackEntry, h]

/-- Witness for the amended C3 at concrete submissions. -/
theorem sentiment_default_only_when_missing_witness :
    (mkFeedbackEntry subNoSent).sentiment = "neutral" ∧
    (mkFeedbackEntry subHappy).sentiment = "happy" :=
  ⟨(sentiment_default_only_when_missing subNoSent).1 rfl,
   (sentiment_default_only_when_missing subHappy).2 "happy" rfl⟩

/-- C1 counterexample: on the empty store the support and concern
percentages are not 0 - pandas `mean` of an empty column is NaN (`none`
here), so the claim that they are defined as 0 fails at the empty store. -/
theorem empty_store_rates_counterexample :
    supportRate [] ≠ some 0 ∧ concernRate [] ≠ some 0 := by decide

/-- C1 amended: on the empty store the recommendation sequence is empty and
every counting aggregation is empty or zero, but the support-rate,
concern-rate and negative-fraction values are NaN (`none`), not 0; the
tabular export still renders its header row alone. -/
theorem empty_store_behaviour :
    generate_recommendations [] = [] ∧
    supportRate [] = none ∧
    concernRate [] = none ∧
    negative_pct [] = none ∧
    value_counts (([] : List FeedbackRecord).map (fun r => r.sentiment)) = [] ∧
    crossTab [] = [] ∧
    csvExport [] = [csvHeader] := by decide

/-- C9: the narrative report is a pure function of the store snapshot and
the clock, and the clock value appears only in the one embedded generation
timestamp: two runs over the same store differ exactly in that segment. -/
theorem report_deterministic_modulo_timestamp
    (records : List FeedbackRecord) (t₁ t₂ : DateTime) :
    ∃ pre post : String,
      generate_summary_report records t₁ = pre ++ (dtFullStr t₁ ++ post) ∧
      generate_summary_report records t₂ = pre ++ (dtFullStr t₂ ++ post) :=
  ⟨"\nPOLICY FEEDBACK ANALYSIS REPORT\nGenerated: ", reportRest records, rfl, rfl⟩

/-- C6 counterexample: the exported header carries a ninth column `hour`
(added to the frame at src/main.py line 363 before the export at line 407),
so the columns are not exactly the eight record attributes. -/
theorem csv_columns_counterexample :
    "hour" ∈ csvHeader ∧
    csvHeader ≠ ["timestamp", "name", "demographic", "type", "text",
      "sentiment", "key_points", "category"] := by decide

/-- C6 amended: the tabular export is the header row followed by exactly one
row per stored record in insertion order with no sorting, and its columns
are the eight record attributes in their fixed order plus the derived
`hour` column appended by the timeline computation. -/
theorem csv_export_shape (records : List FeedbackRecord) :
    csvExport records = csvHeader :: records.map serializeRecord ∧
    csvHeader = ["timestamp", "name", "demographic", "type", "text",
      "sentiment", "key_points", "category"] ++ ["hour"] ∧
    (csvExport records).length = records.length + 1 ∧
    ∀ (i : Nat) (h : i < records.length),
      (csvExport records).get ⟨i + 1, by simp [csvExport]; omega⟩
        = serializeRecord (records.get ⟨i, h⟩) := by
  refine ⟨rfl, by decide, by simp [csvExport], ?_⟩
  intro i h
  simp [csvExport]

/-- Witness for the amended C6 at a concrete store and row index. -/
theorem csv_export_shape_witness :
    (csvExport ex7).get ⟨1, by decide⟩ = serializeRecord (ex7.get ⟨0, by decide⟩) :=
  (csv_export_shape ex7).2.2.2 0 (by decide)

/-- The three class counts partition a store whose sentiments all lie in the
three classes. -/
theorem sentiment_counts_partition (records : List FeedbackRecord)
    (h : ∀ r ∈ records, r.sentiment ∈ SENTIMENT_CLASSES) :
    posCount records + neutralCount records + negCount records = records.length := by
  induction records with
  | nil => rfl
  | cons r rs ih =>
    have hr : r.sentiment ∈ SENTIMENT_CLASSES := h r (List.mem_cons_self r rs)
    have ihh := ih fun x hx => h x (List.mem_cons_of_mem r hx)
    simp only [posCount, neutralCount, negCount, List.map_cons, List.count_cons] at *
    simp only [SENTIMENT_CLASSES, List.mem_cons, List.not_mem_nil, or_false] at hr
    rcases hr with h1 | h1 | h1 <;> rw [h1] <;> simp <;> omega

/-- C8 amended: for every non-empty store all of whose sentiments lie in the
three classes, the three sentiment percentages are defined and sum to
exactly 100. -/
theorem sentiment_rates_sum (records : List FeedbackRecord)
    (hne : records ≠ [])
    (h : ∀ r ∈ records, r.sentiment ∈ SENTIMENT_CLASSES) :
    ∃ p u v : ℚ, supportRate records = some p ∧ neutralRate records = some u ∧
      concernRate records = some v ∧ p + u + v = 100 := by
  have hlen : records.length ≠ 0 := by
    simpa using hne
  have hn : (records.length : ℚ) ≠ 0 := Nat.cast_ne_zero.mpr hlen
  have hpart := sentiment_counts_partition records h
  have hcast : ((posCount records : ℚ) + (neutralCount records : ℚ) + (negCount records : ℚ))
      = (records.length : ℚ) := by
    exact_mod_cast congrArg (fun n : Nat => (n : ℚ)) hpart
  refine ⟨(posCount records : ℚ) / (records.length : ℚ) * 100,
    (neutralCount records : ℚ) / (records.length : ℚ) * 100,
    (negCount records : ℚ) / (records.length : ℚ) * 100, ?_, ?_, ?_, ?_⟩
  · simp [supportRate, hlen]
  · simp [neutralRate, hlen]
  · simp [concernRate, hlen]
  · field_simp
    linarith [hcast]

/-- Witness for the amended C8 at the concrete all-negative store. -/
theorem sentiment_rates_sum_witness :
    ∃ p u v : ℚ, supportRate ex5 = some p ∧ neutralRate ex5 = some u ∧
      concernRate ex5 = some v ∧ p + u + v = 100 :=
  sentiment_rates_sum ex5 (by decide) (by decide)

/-- C8 counterexample: the reachable non-empty store holding one record with
the unrecognized sentiment `"happy"` has all three percentages equal to 0,
so they do not sum to 100. -/
theorem sentiment_rates_sum_counterexample :
    stHappy ≠ [] ∧
    ¬ ∃ p u v : ℚ, supportRate stHappy = some p ∧ neutralRate stHappy = some u ∧
        concernRate stHappy = some v ∧ p + u + v = 100 := by
  constructor
  · decide
  · rintro ⟨p, u, v, hp, hu, hv, hs⟩
    simp [supportRate, neutralRate, concernRate, stHappy, submitFeedback, subHappy,
      mkFeedbackEntry, posCount, neutralCount, negCount] at hp hu hv
    rw [← hp, ← hu, ← hv] at hs
    norm_num at hs

/-- Totality of the lexicographic comparison on character lists. -/
theorem charListLe_total : ∀ as bs : List Char,
    charListLe as bs = false → charListLe bs as = true := by
  intro as
  induction as with
  | nil =>
    intro bs h
    simp [charListLe] at h
  | cons a as ih =>
    intro bs h
    cases bs with
    | nil => simp [charListLe]
    | cons b bs =>
      simp only [charListLe] at h ⊢
      by_cases hab : a < b
      · rw [if_pos hab] at h
        cases h
      · rw [if_neg hab] at h
        by_cases hba : b < a
        · rw [if_pos hba]
        · rw [if_neg hba] at h
          rw [if_neg hba, if_neg hab]
          exact ih bs h

/-- Totality of the lexicographic comparison on strings. -/
theorem strLe_total (a b : String) (h : strLe a b = false) : strLe b a = true :=
  charListLe_total a.data b.data h

/-- Inserting into a list yields a permutation of consing. -/
theorem perm_insertAsc (x : String) : ∀ l : List String, List.Perm (insertAsc x l) (x :: l) := by
  intro l
  induction l with
  | nil => exact List.Perm.refl _
  | cons y ys ih =>
    simp only [insertAsc]
    by_cases h : strLe x y = true
    · rw [if_pos h]
    · rw [if_neg h]
      exact (List.Perm.cons y ih).trans (List.Perm.swap x y ys)

/-- The ascending sort permutes its input. -/
theorem perm_sortStrAsc : ∀ l : List String, List.Perm (sortStrAsc l) l := by
  intro l
  induction l with
  | nil => exact List.Perm.refl _
  | cons y ys ih =>
    simp only [sortStrAsc]
    exact (perm_insertAsc y (sortStrAsc ys)).trans (List.Perm.cons y ih)

/-- Inserting preserves adjacent sortedness. -/
theorem chain'_insertAsc (x : String) :
    ∀ l : List String, List.Chain' (fun a b => strLe a b = true) l →
      List.Chain' (fun a b => strLe a b = true) (insertAsc x l) := by
  intro l
  induction l with
  | nil =>
    intro _
    simp [insertAsc]
  | cons y ys ih =>
    intro hc
    obtain ⟨hy, hys⟩ := List.chain'_cons'.mp hc
    simp only [insertAsc]
    by_cases h : strLe x y = true
    · rw [if_pos h]
      exact List.chain'_cons.mpr ⟨h, List.chain'_cons'.mpr ⟨hy, hys⟩⟩
    · rw [if_neg h]
      have h' : strLe x y = false := by
        simpa using h
      refine List.chain'_cons'.mpr ⟨?_, ih hys⟩
      intro z hz
      cases ys with
      | nil =>
        simp only [insertAsc, List.head?_cons, Option.mem_def, Option.some.injEq] at hz
        subst hz
        exact strLe_total x y h'
      | cons w ws =>
        simp only [insertAsc] at hz
        by_cases hw : strLe x w = true
        · rw [if_pos hw] at hz
          simp only [List.head?_cons, Option.mem_def, Option.some.injEq] at hz
          subst hz
          exact strLe_total x y h'
        · rw [if_neg hw] at hz
          simp only [List.head?_cons, Option.mem_def, Option.some.injEq] at hz
          subst hz
          exact hy w rfl

/-- The ascending sort is adjacently sorted. -/
theorem chain'_sortStrAsc : ∀ l : List String,
    List.Chain' (fun a b => strLe a b = true) (sortStrAsc l) := by
  intro l
  induction l with
  | nil => simp [sortStrAsc]
  | cons y ys ih =>
    simp only [sortStrAsc]
    exact chain'_insertAsc y (sortStrAsc ys) ih

/-- Membership in the first-appearance deduplication. -/
theorem mem_dedupFirstAux : ∀ (l seen : List String) (x : String),
    x ∈ dedupFirstAux seen l ↔ x ∈ l ∧ x ∉ seen := by
  intro l
  induction l with
  | nil =>
    intro seen x
    simp [dedupFirstAux]
  | cons y ys ih =>
    intro seen x
    simp only [dedupFirstAux]
    by_cases hy : y ∈ seen
    · rw [if_pos hy, ih]
      simp only [List.mem_cons]
      constructor
      · exact fun h => ⟨Or.inr h.1, h.2⟩
      · rintro ⟨h1 | h1, h2⟩
        · subst h1
          exact absurd hy h2
        · exact ⟨h1, h2⟩
    · rw [if_neg hy]
      simp only [List.mem_cons, ih]
      constructor
      · rintro (rfl | ⟨h1, h2⟩)
        · exact ⟨Or.inl rfl, hy⟩
        · push_neg at h2
          exact ⟨Or.inr h1, h2.2⟩
      · rintro ⟨h1 | h1, h2⟩
        · subst h1
          exact Or.inl rfl
        · by_cases hxy : x = y
          · exact Or.inl hxy
          · refine Or.inr ⟨h1, ?_⟩
            simp [List.mem_cons, hxy, h2]

/-- The first-appearance deduplication has no duplicates. -/
theorem nodup_dedupFirstAux : ∀ (l seen : List String), (dedupFirstAux seen l).Nodup := by
  intro l
  induction l with
  | nil =>
    intro seen
    simp [dedupFirstAux]
  | cons y ys ih =>
    intro seen
    simp only [dedupFirstAux]
    by_cases hy : y ∈ seen
    · rw [if_pos hy]
      exact ih seen
    · rw [if_neg hy]
      refine List.nodup_cons.mpr ⟨?_, ih (y :: seen)⟩
      intro hmem
      exact ((mem_dedupFirstAux ys (y :: seen) y).mp hmem).2 (List.mem_cons_self y seen)

/-- C7 counterexample: with demographics appearing in order Student, Farmer
and no neutral record, the cross-tab rows are not in first-appearance order
(the groupby sorts them alphabetically) and its columns are not the fixed
three sentiment classes (only the present values appear, alphabetically). -/
theorem cross_tab_counterexample :
    crossTabRows ex7 ≠ dedupFirst (ex7.map (fun r => r.demographic)) ∧
    crossTabCols ex7 ≠ SENTIMENT_CLASSES := by decide

/-- C7 amended: the cross-tab rows are exactly the demographics present in
the data, without duplicates, sorted lexicographically ascending (not
first-appearance order); its columns are exactly the sentiment values
present in the data, sorted likewise (not the fixed three-class list); and
every cell of the matrix carries the count of its demographic/sentiment
combination, 0 when the combination is absent. -/
theorem cross_tab_shape (records : List FeedbackRecord) :
    List.Chain' (fun a b => strLe a b = true) (crossTabRows records) ∧
    (crossTabRows records).Nodup ∧
    (∀ d, d ∈ crossTabRows records ↔ d ∈ records.map (fun r => r.demographic)) ∧
    List.Chain' (fun a b => strLe a b = true) (crossTabCols records) ∧
    (crossTabCols records).Nodup ∧
    (∀ s, s ∈ crossTabCols records ↔ s ∈ records.map (fun r => r.sentiment)) ∧
    crossTab records = (crossTabRows records).map (fun d =>
      (d, (crossTabCols records).map (fun s => (s, cellCount records d s)))) := by
  refine ⟨chain'_sortStrAsc _, ?_, ?_, chain'_sortStrAsc _, ?_, ?_, rfl⟩
  · exact (perm_sortStrAsc _).nodup_iff.mpr (nodup_dedupFirstAux _ _)
  · intro d
    rw [crossTabRows, dedupFirst, (perm_sortStrAsc _).mem_iff, mem_dedupFirstAux]
    simp
  · exact (perm_sortStrAsc _).nodup_iff.mpr (nodup_dedupFirstAux _ _)
  · intro s
    rw [crossTabCols, dedupFirst, (perm_sortStrAsc _).mem_iff, mem_dedupFirstAux]
    simp

/-- Inserting never yields the empty list. -/
theorem insertDesc_ne_nil (p : String × Nat) : ∀ l, insertDesc p l ≠ [] := by
  intro l
  cases l with
  | nil => simp [insertDesc]
  | cons q qs =>
    simp only [insertDesc]
    by_cases h : q.2 ≤ p.2
    · rw [if_pos h]
      simp
    · rw [if_neg h]
      simp

/-- Only the empty list sorts to the empty list. -/
theorem sortCountDesc_eq_nil : ∀ l, sortCountDesc l = [] → l = [] := by
  intro l
  cases l with
  | nil => exact fun _ => rfl
  | cons p ps =>
    intro h
    exact absurd h (insertDesc_ne_nil p (sortCountDesc ps))

/-- The head of the stable descending sort is an element of maximal count,
placed after exactly those input elements of strictly larger position that
have strictly smaller count - so among maximal elements the earliest one in
the input wins. -/
theorem sortCountDesc_head :
    ∀ (l : List (String × Nat)) (h : String × Nat) (t : List (String × Nat)),
      sortCountDesc l = h :: t →
      h ∈ l ∧ (∀ x ∈ l, x.2 ≤ h.2) ∧
        ∃ l₁ l₂, l = l₁ ++ h :: l₂ ∧ ∀ x ∈ l₁, x.2 < h.2 := by
  intro l
  induction l with
  | nil =>
    intro h t hh
    cases hh
  | cons p ps ih =>
    intro h t hh
    simp only [sortCountDesc] at hh
    rcases hs : sortCountDesc ps with _ | ⟨h', t'⟩
    · have hps : ps = [] := sortCountDesc_eq_nil ps hs
      rw [hs] at hh
      simp only [insertDesc] at hh
      injection hh with h1 h2
      subst h1
      subst hps
      refine ⟨List.mem_cons_self p [], ?_, [], [], rfl, by simp⟩
      intro x hx
      simp only [List.mem_cons, List.not_mem_nil, or_false] at hx
      subst hx
      exact Nat.le_refl _
    · rw [hs] at hh
      simp only [insertDesc] at hh
      obtain ⟨hmem', hbound', q₁, q₂, hdec', hq₁'⟩ := ih h' t' hs
      by_cases hcmp : h'.2 ≤ p.2
      · rw [if_pos hcmp] at hh
        injection hh with h1 h2
        subst h1
        refine ⟨List.mem_cons_self p ps, ?_, [], ps, rfl, by simp⟩
        intro x hx
        rcases List.mem_cons.mp hx with rfl | hx
        · exact Nat.le_refl _
        · exact Nat.le_trans (hbound' x hx) hcmp
      · rw [if_neg hcmp] at hh
        injection hh with h1 h2
        subst h1
        have hlt : p.2 < h'.2 := by omega
        refine ⟨List.mem_cons_of_mem p hmem', ?_, p :: q₁, q₂, ?_, ?_⟩
        · intro x hx
          rcases List.mem_cons.mp hx with rfl | hx
          · exact Nat.le_of_lt hlt
          · exact hbound' x hx
        · rw [hdec']
          rfl
        · intro x hx
          rcases List.mem_cons.mp hx with rfl | hx
          · exact hlt
          · exact hq₁' x hx

/-- Splitting a mapped list splits the original. -/
theorem map_eq_append_cons {α β : Type} (f : α → β) :
    ∀ (l₁ : List β) (l : List α) (b : β) (l₂ : List β),
      l.map f = l₁ ++ b :: l₂ →
      ∃ k₁ x k₂, l = k₁ ++ x :: k₂ ∧ k₁.map f = l₁ ∧ f x = b ∧ k₂.map f = l₂ := by
  intro l₁
  induction l₁ with
  | nil =>
    intro l b l₂ h
    cases l with
    | nil => simp at h
    | cons a as =>
      simp only [List.map_cons, List.nil_append] at h
      injection h with h1 h2
      exact ⟨[], a, as, rfl, rfl, h1, h2⟩
  | cons c cs ih =>
    intro l b l₂ h
    cases l with
    | nil => simp at h
    | cons a as =>
      simp only [List.map_cons, List.cons_append] at h
      injection h with h1 h2
      obtain ⟨k₁, x, k₂, rfl, hk₁, hx, hk₂⟩ := ih as b l₂ h2
      exact ⟨a :: k₁, x, k₂, rfl, by simp [hk₁, h1], hx, hk₂⟩

/-- C5: the top-concerned demographic (`demo_concerns.index[0]`,
src/main.py line 437) is, among records with negative sentiment, the
demographic whose count in the negative rows is maximal, the earliest
first-appearing one among ties; on the concrete store of the spec it is
Farmer, and rule 2 names it whenever at least one negative record exists. -/
theorem top_concerned_spec :
    topConcernedDemographic ex5 = some "Farmer" ∧
    ∀ records : List FeedbackRecord, negativeRecords records ≠ [] →
      ∃ d, topConcernedDemographic records = some d ∧
        rec2msg d ∈ generate_recommendations records ∧
        (∀ d', (negDemos records).count d' ≤ (negDemos records).count d) ∧
        ∃ ks₁ ks₂, dedupFirst (negDemos records) = ks₁ ++ d :: ks₂ ∧
          ∀ k ∈ ks₁, (negDemos records).count k < (negDemos records).count d := by
  constructor
  · decide
  · intro records hne
    have hnegs_ne : negDemos records ≠ [] := by
      intro h
      exact hne (List.map_eq_nil_iff.mp h)
    obtain ⟨n0, rest, hn0⟩ : ∃ n0 rest, negDemos records = n0 :: rest := by
      cases hh : negDemos records with
      | nil => exact absurd hh hnegs_ne
      | cons n0 rest => exact ⟨n0, rest, rfl⟩
    have hded_mem : n0 ∈ dedupFirst (negDemos records) := by
      rw [dedupFirst, mem_dedupFirstAux]
      simp [hn0]
    have hsort_ne :
        sortCountDesc ((dedupFirst (negDemos records)).map
          (fun k => (k, (negDemos records).count k))) ≠ [] := by
      intro h
      have := sortCountDesc_eq_nil _ h
      rw [List.map_eq_nil_iff] at this
      rw [this] at hded_mem
      exact List.not_mem_nil n0 hded_mem
    rcases hvc : sortCountDesc ((dedupFirst (negDemos records)).map
        (fun k => (k, (negDemos records).count k))) with _ | ⟨h, t⟩
    · exact absurd hvc hsort_ne
    obtain ⟨hmem, hbound, l₁, l₂, hdec, hl₁⟩ := sortCountDesc_head _ h t hvc
    obtain ⟨d, hd, hkd⟩ := List.mem_map.mp hmem
    have hvc' : value_counts (negDemos records)
        = (d, (negDemos records).count d) :: t := by
      rw [value_counts, hvc, ← hkd]
    refine ⟨d, ?_, ?_, ?_, ?_⟩
    · rw [topConcernedDemographic, hvc']
      rfl
    · simp only [generate_recommendations, hvc']
      simp [List.mem_append]
    · intro d'
      by_cases hmemd : d' ∈ negDemos records
      · have hin : (d', (negDemos records).count d')
            ∈ (dedupFirst (negDemos records)).map
              (fun k => (k, (negDemos records).count k)) := by
          refine List.mem_map.mpr ⟨d', ?_, rfl⟩
          rw [dedupFirst, mem_dedupFirstAux]
          simp [hmemd]
        have := hbound _ hin
        rw [← hkd] at this
        exact this
      · rw [List.count_eq_zero.mpr hmemd]
        exact Nat.zero_le _
    · rw [← hkd] at hdec hl₁
      obtain ⟨k₁, x, k₂, hkeq, hk₁, hx, hk₂⟩ :=
        map_eq_append_cons (fun k => (k, (negDemos records).count k)) l₁
          (dedupFirst (negDemos records)) (d, (negDemos records).count d) l₂ hdec
      have hxd : x = d := congrArg Prod.fst hx
      subst hxd
      refine ⟨k₁, k₂, hkeq, ?_⟩
      intro k hk
      have hkin : (k, (negDemos records).count k) ∈ l₁ := by
        rw [← hk₁]
        exact List.mem_map.mpr ⟨k, hk, rfl⟩
      have := hl₁ _ hkin
      simpa using this

/-- Witness for C5 at the concrete store of the spec. -/
theorem top_concerned_spec_witness :
    ∃ d, topConcernedDemographic ex5 = some d ∧
      rec2msg d ∈ generate_recommendations ex5 ∧
      (∀ d', (negDemos ex5).count d' ≤ (negDemos ex5).count d) ∧
      ∃ ks₁ ks₂, dedupFirst (negDemos ex5) = ks₁ ++ d :: ks₂ ∧
        ∀ k ∈ ks₁, (negDemos ex5).count k < (negDemos ex5).count d :=
  top_concerned_spec.2 ex5 (by decide)
